import Mathlib

/-!
Verification of the synthetic time-series generation utilities in
`examples/utils/synthetic_data.py`.

The Python module is embedded shallowly:

* NumPy float arithmetic is modelled by exact real arithmetic (`ℝ`).
* Randomness is made explicit: every function that draws from the process-wide
  random generator receives the draws as extra oracle arguments.  A draw
  `np.random.normal(0, sigma)` is modelled as `sigma * g t` where `g : ℕ → ℝ`
  supplies the standard-normal draws, `np.random.choice([-1, 1])` is modelled
  by a `ℕ → Bool` oracle, and the index selection of
  `np.random.choice(population, k, replace=False)` by a `ℕ → ℕ` oracle that
  drives a without-replacement sampler.  All theorems quantify over the
  oracles, so they hold for every possible sequence of random draws.
* `np.random.choice(population, k, replace=False)` raises a `ValueError` when
  the population is empty or when `k` exceeds its size; fallible functions
  therefore return an `Option`, with `none` standing for the raised error.
* Python `datetime` values are modelled as whole minutes since
  0001-01-01 00:00 (the formatted output has minute resolution and every step
  size used by the module is a whole number of minutes); `strftime` with the
  pattern used by the module is implemented over the proleptic Gregorian
  calendar.
-/

namespace SyntheticData

/-- Model of `np.linspace(0, stop, n)` evaluated at position `t`:
`0` when `n ≤ 1`, otherwise `stop * t / (n - 1)`. -/
noncomputable def np_linspace0 (stop : ℝ) (n : ℕ) (t : ℕ) : ℝ :=
  if n ≤ 1 then 0 else stop * t / ((n : ℝ) - 1)

/-- Embedding of `generate_trend_series` from `synthetic_data.py`.  `g` supplies the
standard-normal noise draws; the noise term is `base_value * noise_level * g t`,
matching `np.random.normal(0, base_value * noise_level, n_points)`. -/
noncomputable def generate_trend_series (n_points : ℕ) (trend_type : String)
    (base_value trend_strength noise_level : ℝ) (g : ℕ → ℝ) : List ℝ :=
  (List.range n_points).map (fun (t : ℕ) =>
    let trend : ℝ :=
      if trend_type = "linear" then base_value + trend_strength * (t : ℝ)
      else if trend_type = "exponential" then
        base_value * (1 + 0.01 * trend_strength) ^ t
      else if trend_type = "logarithmic" then
        base_value + trend_strength * 10 * Real.log (1 + (t : ℝ))
      else base_value
    trend + base_value * noise_level * g t)

/-- The `period_map` lookup of `generate_seasonal_series`; an unrecognized
label falls back to `period_map.get(seasonality, 7)`. -/
def period_map (seasonality : String) : ℕ :=
  if seasonality = "hourly" then 24
  else if seasonality = "daily" then 7
  else if seasonality = "weekly" then 52
  else if seasonality = "monthly" then 12
  else if seasonality = "yearly" then 1
  else 7

/-- Embedding of `generate_seasonal_series` from `synthetic_data.py`. -/
noncomputable def generate_seasonal_series (n_points : ℕ) (base_value : ℝ)
    (seasonality : String) (amplitude noise_level : ℝ) (g : ℕ → ℝ) : List ℝ :=
  (List.range n_points).map (fun (t : ℕ) =>
    base_value +
      base_value * amplitude *
        Real.sin (2 * Real.pi * (t : ℝ) / (period_map seasonality : ℝ)) +
      base_value * noise_level * g t)

/-- Embedding of `generate_trend_seasonal_series` from `synthetic_data.py`
(`seasonal_period` is a Python `int`). -/
noncomputable def generate_trend_seasonal_series (n_points : ℕ)
    (base_value trend_strength : ℝ) (seasonal_period : ℤ)
    (seasonal_amplitude noise_level : ℝ) (g : ℕ → ℝ) : List ℝ :=
  (List.range n_points).map (fun (t : ℕ) =>
    (base_value + trend_strength * (t : ℝ)) +
      base_value * seasonal_amplitude *
        Real.sin (2 * Real.pi * (t : ℝ) / (seasonal_period : ℝ)) +
      base_value * noise_level * g t)

/-- One step of the legacy NumPy without-replacement sampler: the `pick`
oracle selects a position in the remaining population, the chosen element is
removed before the next draw.  Used to model
`np.random.choice(population, k, replace=False)`. -/
def sampleWithoutReplacement (pick : ℕ → ℕ) : ℕ → List ℤ → List ℤ
  | 0, _ => []
  | k + 1, pop =>
      let j := pick k % pop.length
      pop.getD j 0 :: sampleWithoutReplacement pick k (pop.eraseIdx j)

/-- Model of `np.random.choice(population, k, replace=False)`: raises (`none`) when the
population is empty or when `k` exceeds the population size, otherwise draws
`k` distinct elements. -/
def sampleChoice (pop : List ℤ) (k : ℕ) (pick : ℕ → ℕ) : Option (List ℤ) :=
  if pop.isEmpty then none
  else if k ≤ pop.length then some (sampleWithoutReplacement pick k pop)
  else none

/-- The anomaly-injection loop of `generate_anomaly_series`: for each index in
the list that lies in `[0, n_points)`, add `sign * base_value *
anomaly_magnitude` to the value at that position and set its flag, where the
sign is `+1` for `"up"`, `-1` for `"down"`, and drawn from the `signPick`
oracle otherwise.  `k` counts loop iterations (the oracle position). -/
noncomputable def injectAnomalies (n_points : ℕ) (base_value anomaly_magnitude : ℝ)
    (anomaly_direction : String) (signPick : ℕ → Bool) :
    List ℤ → ℕ → List ℝ → List Bool → List ℝ × List Bool
  | [], _, values, flags => (values, flags)
  | idx :: rest, k, values, flags =>
      if 0 ≤ idx ∧ idx < (n_points : ℤ) then
        let sign : ℝ :=
          if anomaly_direction = "up" then 1
          else if anomaly_direction = "down" then -1
          else if signPick k then 1 else -1
        let j := idx.toNat
        injectAnomalies n_points base_value anomaly_magnitude anomaly_direction
          signPick rest (k + 1)
          (values.set j (values.getD j 0 + sign * base_value * anomaly_magnitude))
          (flags.set j true)
      else
        injectAnomalies n_points base_value anomaly_magnitude anomaly_direction
          signPick rest (k + 1) values flags

/-- The effect of one anomaly-loop iteration on the flag list: set position
`idx` to `true` when `idx` lies in `[0, n)`, leave the list unchanged
otherwise. -/
def flagUpd (n : ℕ) (fl : List Bool) (idx : ℤ) : List Bool :=
  if 0 ≤ idx ∧ idx < (n : ℤ) then fl.set idx.toNat true else fl

/-- Embedding of `generate_anomaly_series` from `synthetic_data.py`.  When
`anomaly_indices` is `none` the code draws `max(1, int(n_points * 0.05))`
distinct indices with `np.random.choice(n_points, ·, replace=False)`, which
fails (`none`) when the population `0..n_points-1` is too small. -/
noncomputable def generate_anomaly_series (n_points : ℕ) (base_value : ℝ)
    (anomaly_indices : Option (List ℤ)) (anomaly_magnitude : ℝ)
    (anomaly_direction : String) (noise_level : ℝ)
    (g : ℕ → ℝ) (pick : ℕ → ℕ) (signPick : ℕ → Bool) :
    Option (List ℝ × List Bool) :=
  let values := (List.range n_points).map (fun (t : ℕ) =>
    base_value + 0.001 * base_value * (t : ℝ) + base_value * noise_level * g t)
  let flags := List.replicate n_points false
  let indices : Option (List ℤ) :=
    match anomaly_indices with
    | some idxs => some idxs
    | none =>
        sampleChoice ((List.range n_points).map Int.ofNat)
          (max 1 (n_points / 20)) pick
  indices.map (fun idxs =>
    injectAnomalies n_points base_value anomaly_magnitude anomaly_direction
      signPick idxs 0 values flags)

/-- The effective base-value list of `generate_multivariate_series`: the
explicit `base_values` argument, or `[100.0 + i * 50 for i in range(n_series)]`
when it is `None`. -/
noncomputable def mvBaseValues (n_series : ℕ) (base_values : Option (List ℝ)) :
    List ℝ :=
  base_values.getD ((List.range n_series).map (fun (i : ℕ) => 100.0 + (i : ℝ) * 50))

/-- The base value of series `i` in `generate_multivariate_series`:
`base_values[i] if i < len(base_values) else 100.0`. -/
noncomputable def mvBase (n_series : ℕ) (base_values : Option (List ℝ)) (i : ℕ) : ℝ :=
  let bvs := mvBaseValues n_series base_values
  if i < bvs.length then bvs.getD i 0 else 100.0

/-- Embedding of `generate_multivariate_series` from `synthetic_data.py`.  The module draws
one shared standard-normal vector (`common_component`) of length `n_points`
before the per-series loop and one independent vector per series inside the
loop; with the draws laid out consecutively in a single oracle `rng`, the
common component occupies positions `0..n_points-1` and the individual
component of series `i` occupies positions
`n_points + i * n_points ..< n_points + (i+1) * n_points`. -/
noncomputable def generate_multivariate_series (n_series n_points : ℕ)
    (base_values : Option (List ℝ)) (correlation noise_level : ℝ)
    (rng : ℕ → ℝ) : List (String × List ℝ) :=
  (List.range n_series).map (fun (i : ℕ) =>
    let base := mvBase n_series base_values i
    ("series_" ++ toString i,
      (List.range n_points).map (fun (t : ℕ) =>
        let combined := correlation * rng t +
          Real.sqrt (1 - correlation ^ 2) * rng (n_points + i * n_points + t)
        base + np_linspace0 (base * 0.3) n_points t + combined * base * noise_level)))

/-- Leap-year test of the proleptic Gregorian calendar. -/
def isLeapYear (y : ℕ) : Bool :=
  (y % 4 = 0 && y % 100 ≠ 0) || y % 400 = 0

/-- Convert a day count (days since 0000-03-01 of the proleptic Gregorian
calendar) to a `(year, month, day)` civil date; the standard era-based
algorithm, specialised to non-negative day counts. -/
def civilFromDays (z : ℕ) : ℕ × ℕ × ℕ :=
  let era := z / 146097
  let doe := z % 146097
  let yoe := (doe - doe / 1460 + doe / 36524 - doe / 146096) / 365
  let doy := doe - (365 * yoe + yoe / 4 - yoe / 100)
  let mp := (5 * doy + 2) / 153
  let d := doy - (153 * mp + 2) / 5 + 1
  let m := if mp < 10 then mp + 3 else mp - 9
  let y := yoe + era * 400 + (if m ≤ 2 then 1 else 0)
  (y, m, d)

/-- Zero-pad a number to two digits, as `strftime` does for `%m`, `%d`, `%I`
and `%M`. -/
def pad2 (k : ℕ) : String :=
  if k < 10 then "0" ++ toString k else toString k

/-- Zero-pad a year to four digits (`%Y`). -/
def pad4 (k : ℕ) : String :=
  if k < 10 then "000" ++ toString k
  else if k < 100 then "00" ++ toString k
  else if k < 1000 then "0" ++ toString k
  else toString k

/-- Model of `dt.strftime("%m/%d/%Y, %I:%M %p")` for a datetime given as whole minutes
since 0001-01-01 00:00: zero-padded month/day, four-digit year, zero-padded
12-hour clock (hour `0` prints as `12`), and `AM`/`PM`. -/
def formatTimestamp (t : ℕ) : String :=
  let day := t / 1440
  let rem := t % 1440
  let hour := rem / 60
  let minute := rem % 60
  let ymd := civilFromDays (day + 306)
  let hour12 := if hour % 12 = 0 then 12 else hour % 12
  let ampm := if hour < 12 then "AM" else "PM"
  pad2 ymd.2.1 ++ "/" ++ pad2 ymd.2.2 ++ "/" ++ pad4 ymd.1 ++ ", " ++
    pad2 hour12 ++ ":" ++ pad2 minute ++ " " ++ ampm

/-- The `freq_delta` step table of `generate_timestamps`, in minutes:
`H` ↦ 1 hour, `D` ↦ 1 day, `W` ↦ 1 week, `M` ↦ 30 days, and
`freq_delta.get(freq, timedelta(hours=1))` for any other code. -/
def freq_delta (freq : String) : ℕ :=
  if freq = "H" then 60
  else if freq = "D" then 1440
  else if freq = "W" then 10080
  else if freq = "M" then 43200
  else 60

/-- Embedding of `generate_timestamps` from `synthetic_data.py`.  `now` is the wall-clock
minute at the time of the call; the default start date is
`datetime.now() - timedelta(days=30)`. -/
def generate_timestamps (n_points : ℕ) (start_date : Option ℕ) (freq : String)
    (now : ℕ) : List String :=
  let start := start_date.getD (now - 43200)
  (List.range n_points).map (fun i => formatTimestamp (start + i * freq_delta freq))

/-- Python `int()` applied to a real number: truncation toward zero. -/
noncomputable def intTrunc (x : ℝ) : ℤ :=
  if 0 ≤ x then Int.floor x else -Int.floor (-x)

/-- Embedding of `generate_ad_payload_data` from `synthetic_data.py`.  The anomaly ratio is
kept rational so that `max(1, int(n_points * anomaly_ratio))` is exact.  When
`inject_anomalies` is true the anomaly indices are drawn from the second half
`range(n_points // 2, n_points)` of the index range, which fails (`none`) when
that population is too small. -/
noncomputable def generate_ad_payload_data (n_points : ℕ) (base_value : ℝ)
    (inject_anomalies : Bool) (anomaly_ratio : ℚ) (now : ℕ)
    (g : ℕ → ℝ) (pick : ℕ → ℕ) (signPick : ℕ → Bool) :
    Option (List (String × ℤ)) :=
  let timestamps := generate_timestamps n_points none "H" now
  let result :=
    if inject_anomalies then
      let n_anomalies := max 1 (Int.toNat (Int.floor ((n_points : ℚ) * anomaly_ratio)))
      match sampleChoice
          ((List.range (n_points - n_points / 2)).map
            (fun j => ((n_points / 2 + j : ℕ) : ℤ)))
          n_anomalies pick with
      | none => none
      | some idxs =>
          generate_anomaly_series n_points base_value (some idxs) 0.4 "both"
            0.03 g pick signPick
    else
      generate_anomaly_series n_points base_value (some []) 0.5 "both" 0.03 g
        pick signPick
  result.map (fun vf => (timestamps.zip vf.1).map (fun p => (p.1, intTrunc p.2)))

/-- The nested-mapping result of `generate_covariates`: four fixed top-level
keys, each an insertion-ordered mapping (association list) from covariate name
to a mapping from series identifier to a scalar (static) or sequence
(dynamic). -/
structure CovariateBundle where
  static_numerical_covariates : List (String × List (String × ℝ))
  static_categorical_covariates : List (String × List (String × String))
  dynamic_numerical_covariates : List (String × List (String × List ℝ))
  dynamic_categorical_covariates : List (String × List (String × List String))

/-- Embedding of `generate_covariates` from `synthetic_data.py`.  `g sid t` supplies the
standard-normal draw behind `np.random.normal(0, 2)` for series `sid` at time
index `t`. -/
noncomputable def generate_covariates (n_points : ℕ) (series_ids : List String)
    (include_horizon : Bool) (horizon_len : ℕ) (g : String → ℕ → ℝ) :
    CovariateBundle :=
  let total_len := if include_horizon then n_points + horizon_len else n_points
  let categories := ["electronics", "clothing", "food", "home"]
  let days := ["Mon", "Tue", "Wed", "Thu", "Fri", "Sat", "Sun"]
  { static_numerical_covariates :=
      [("base_price", series_ids.enum.map (fun p => (p.2, 100.0 + (p.1 : ℝ) * 50)))]
    static_categorical_covariates :=
      [("category", series_ids.enum.map (fun p => (p.2, categories.getD (p.1 % categories.length) "")))]
    dynamic_numerical_covariates :=
      [("temperature", series_ids.map (fun sid =>
        (sid, (List.range total_len).map (fun (t : ℕ) =>
          20 + 10 * Real.sin (2 * Real.pi * (t : ℝ) / 24) + 2 * g sid t))))]
    dynamic_categorical_covariates :=
      [("day_of_week", series_ids.map (fun sid =>
        (sid, (List.range total_len).map (fun t => days.getD (t % 7) ""))))] }

/-- The fixed 24-hour intraday shape of `generate_electricity_like_data`. -/
def hourlyPattern : List ℝ :=
  [0.8, 0.7, 0.7, 0.7, 0.8, 0.9,
   1.0, 1.2, 1.3, 1.2, 1.1, 1.0,
   1.0, 1.1, 1.1, 1.2, 1.3, 1.4,
   1.3, 1.2, 1.1, 1.0, 0.9, 0.8]

/-- Embedding of `generate_electricity_like_data` from `synthetic_data.py`.  `g` supplies
the per-country price-noise draws, `gcov` the covariate draws of
`generate_covariates` and `gf` the `gen_forecast` draws. -/
noncomputable def generate_electricity_like_data (n_days : ℕ)
    (countries : Option (List String)) (g : String → ℕ → ℝ)
    (gcov : String → ℕ → ℝ) (gf : String → ℕ → ℝ) :
    List (String × List ℝ) × CovariateBundle :=
  let cs := countries.getD ["FR", "BE"]
  let n_points := n_days * 24
  let prices := cs.map (fun country =>
    let base : ℝ := if country = "FR" then 50 else 55
    (country, (List.range n_points).map (fun (i : ℕ) =>
      let hourly := hourlyPattern.getD (i % 24) 0
      let weekly : ℝ := if (i / 24) % 7 < 5 then 1.0 else 0.85
      base * hourly * weekly + np_linspace0 5 n_points i + 3 * g country i)))
  let cov := generate_covariates n_points cs true 24 gcov
  let cov' := { cov with dynamic_numerical_covariates :=
    cov.dynamic_numerical_covariates ++
      [("gen_forecast", cs.map (fun country =>
        (country, (List.range (n_points + 24)).map (fun (t : ℕ) =>
          5000 + 2000 * Real.sin (2 * Real.pi * (t : ℝ) / 24) + 200 * gf country t))))] }
  (prices, cov')

end SyntheticData

namespace SyntheticData

/-- The anomaly-injection loop preserves the lengths of both the value list
and the flag list. -/
theorem injectAnomalies_length (n : ℕ) (b m : ℝ) (d : String) (sp : ℕ → Bool) :
    ∀ (idxs : List ℤ) (k : ℕ) (vs : List ℝ) (fl : List Bool),
      (injectAnomalies n b m d sp idxs k vs fl).1.length = vs.length ∧
      (injectAnomalies n b m d sp idxs k vs fl).2.length = fl.length := by
  intro idxs
  induction idxs with
  | nil => intro k vs fl; exact ⟨rfl, rfl⟩
  | cons idx rest ih =>
      intro k vs fl
      simp only [injectAnomalies]
      split
      · exact ⟨by rw [(ih _ _ _).1, List.length_set],
          by rw [(ih _ _ _).2, List.length_set]⟩
      · exact ih _ _ _

/-- The flag list produced by the anomaly-injection loop is the fold of
`flagUpd` over the index list. -/
theorem injectAnomalies_snd (n : ℕ) (b m : ℝ) (d : String) (sp : ℕ → Bool) :
    ∀ (idxs : List ℤ) (k : ℕ) (vs : List ℝ) (fl : List Bool),
      (injectAnomalies n b m d sp idxs k vs fl).2 = idxs.foldl (flagUpd n) fl := by
  intro idxs
  induction idxs with
  | nil => intro k vs fl; rfl
  | cons idx rest ih =>
      intro k vs fl
      rw [List.foldl_cons]
      simp only [injectAnomalies]
      unfold flagUpd
      split
      · exact ih _ _ _
      · exact ih _ _ _

/-- Folding `flagUpd` preserves the length of the flag list. -/
theorem foldl_flagUpd_length (n : ℕ) :
    ∀ (idxs : List ℤ) (fl : List Bool),
      (idxs.foldl (flagUpd n) fl).length = fl.length := by
  intro idxs
  induction idxs with
  | nil => intro fl; rfl
  | cons idx rest ih =>
      intro fl
      rw [List.foldl_cons, ih]
      unfold flagUpd
      split
      · rw [List.length_set]
      · rfl

/-- Position `j < n` of the folded flag list is true exactly when it was
already true or the integer `j` occurs in the index list (out-of-range
indices never touch any position). -/
theorem foldl_flagUpd_getD (n : ℕ) :
    ∀ (idxs : List ℤ) (fl : List Bool), fl.length = n → ∀ j, j < n →
      (idxs.foldl (flagUpd n) fl).getD j false =
        (fl.getD j false || decide ((j : ℤ) ∈ idxs)) := by
  intro idxs
  induction idxs with
  | nil => intro fl _ j _; simp
  | cons idx rest ih =>
      intro fl hlen j hj
      rw [List.foldl_cons]
      have hlen' : (flagUpd n fl idx).length = n := by
        unfold flagUpd
        split
        · rw [List.length_set]; exact hlen
        · exact hlen
      rw [ih (flagUpd n fl idx) hlen' j hj]
      by_cases hin : 0 ≤ idx ∧ idx < (n : ℤ)
      · rw [flagUpd, if_pos hin]
        by_cases hji : idx.toNat = j
        · have hidx : idx = (j : ℤ) := by
            rw [← hji, Int.toNat_of_nonneg hin.1]
          have hset : (fl.set idx.toNat true).getD j false = true := by
            rw [List.getD_eq_getElem?_getD, List.getElem?_set, if_pos hji,
              if_pos (by rw [hji, hlen]; exact hj)]
            rfl
          rw [hset]
          have hmem : (j : ℤ) ∈ idx :: rest := by
            rw [← hidx]; exact List.mem_cons_self idx rest
          simp [hmem]
        · have hset : (fl.set idx.toNat true).getD j false = fl.getD j false := by
            rw [List.getD_eq_getElem?_getD, List.getElem?_set, if_neg hji,
              ← List.getD_eq_getElem?_getD]
          rw [hset]
          have hne : (j : ℤ) ≠ idx := by
            intro hc
            exact hji (by rw [← hc, Int.toNat_natCast])
          simp [List.mem_cons, hne]
      · rw [flagUpd, if_neg hin]
        have hne : (j : ℤ) ≠ idx := by
          intro hc
          exact hin ⟨by rw [← hc]; exact Int.natCast_nonneg j,
            by rw [← hc]; exact_mod_cast hj⟩
        simp [List.mem_cons, hne]

/-- With an explicitly supplied index list, `generate_anomaly_series` never
fails: it returns the injection loop applied to the freshly generated base
series and an all-false flag list. -/
theorem generate_anomaly_series_explicit_eq (n : ℕ) (b m nl : ℝ) (d : String)
    (l : List ℤ) (g : ℕ → ℝ) (pk : ℕ → ℕ) (sp : ℕ → Bool) :
    generate_anomaly_series n b (some l) m d nl g pk sp =
      some (injectAnomalies n b m d sp l 0
        ((List.range n).map (fun (t : ℕ) =>
          b + 0.001 * b * (t : ℝ) + b * nl * g t))
        (List.replicate n false)) := rfl

/-- C2 (amended): with an explicit anomaly index list, the returned flag list
has the same length `n` as the value list, its true entries are exactly the
supplied indices lying in `[0, n)`, out-of-range indices are silently ignored,
and the number of true entries equals the number of DISTINCT in-range indices
in the supplied list (a duplicated index sets the same flag twice). -/
theorem generate_anomaly_series_flags_spec (n : ℕ) (b m nl : ℝ) (d : String)
    (l : List ℤ) (g : ℕ → ℝ) (pk : ℕ → ℕ) (sp : ℕ → Bool) (v : List ℝ)
    (f : List Bool)
    (h : generate_anomaly_series n b (some l) m d nl g pk sp = some (v, f)) :
    v.length = n ∧ f.length = n ∧
      (∀ j, j < n → (f.getD j false = true ↔ (j : ℤ) ∈ l)) ∧
      f.count true =
        ((List.range n).filter (fun (j : ℕ) => decide ((j : ℤ) ∈ l))).length := by
  rw [generate_anomaly_series_explicit_eq] at h
  have hvf := Option.some.inj h
  have hv : v = (injectAnomalies n b m d sp l 0
      ((List.range n).map (fun (t : ℕ) => b + 0.001 * b * (t : ℝ) + b * nl * g t))
      (List.replicate n false)).1 := by rw [hvf]
  have hf : f = (injectAnomalies n b m d sp l 0
      ((List.range n).map (fun (t : ℕ) => b + 0.001 * b * (t : ℝ) + b * nl * g t))
      (List.replicate n false)).2 := by rw [hvf]
  have hflen : f.length = n := by
    rw [hf, (injectAnomalies_length n b m d sp _ _ _ _).2, List.length_replicate]
  have hfold : f = l.foldl (flagUpd n) (List.replicate n false) := by
    rw [hf, injectAnomalies_snd]
  have hgetD : ∀ j, j < n → f.getD j false = decide ((j : ℤ) ∈ l) := by
    intro j hj
    rw [hfold, foldl_flagUpd_getD n l (List.replicate n false)
      (List.length_replicate n false) j hj]
    rw [List.getD_eq_getElem?_getD, List.getElem?_replicate, if_pos hj]
    rfl
  have hlist : f = (List.range n).map (fun (j : ℕ) => decide ((j : ℤ) ∈ l)) := by
    refine List.ext_getElem ?_ ?_
    · rw [hflen, List.length_map, List.length_range]
    · intro j h₁ h₂
      have hj : j < n := by rwa [hflen] at h₁
      rw [List.getElem_map, List.getElem_range, ← List.getD_eq_getElem f false h₁,
        hgetD j hj]
  refine ⟨?_, hflen, ?_, ?_⟩
  · rw [hv, (injectAnomalies_length n b m d sp _ _ _ _).1, List.length_map,
      List.length_range]
  · intro j hj
    rw [hgetD j hj]
    simp
  · rw [hlist, List.count_eq_countP, List.countP_map]
    have hfun : ((fun x => x == true) ∘ fun (j : ℕ) => decide ((j : ℤ) ∈ l)) =
        fun (j : ℕ) => decide ((j : ℤ) ∈ l) := by
      funext j
      simp [Function.comp]
    rw [hfun, List.countP_eq_length_filter]

/-- Witness for C2 (amended) at `n_points = 2` with indices `[0, 5, -1]`
(one in-range index, two out-of-range ones, silently ignored). -/
theorem generate_anomaly_series_flags_spec_witness :
    ([true, false] : List Bool).count true =
      ((List.range 2).filter
        (fun (j : ℕ) => decide ((j : ℤ) ∈ ([0, 5, -1] : List ℤ)))).length := by
  have h : generate_anomaly_series 2 1000000 (some [0, 5, -1]) 1 "up" 0
      (fun _ => 0) (fun _ => 0) (fun _ => true) =
      some ([2000000, 1001000], [true, false]) := by
    norm_num [generate_anomaly_series, injectAnomalies, List.range_succ,
      List.replicate_succ]
  exact (generate_anomaly_series_flags_spec 2 1000000 1 0 "up" [0, 5, -1]
    (fun _ => 0) (fun _ => 0) (fun _ => true) [2000000, 1001000] [true, false]
    h).2.2.2

/-- Counterexample to C2 as literally stated: with `n_points = 1` and the
duplicated index list `[0, 0]`, the list contains two in-range entries but the
returned flag list has only one true entry (both writes hit the same flag; the
anomaly offset is applied twice to the same value). -/
theorem generate_anomaly_series_duplicate_cex :
    generate_anomaly_series 1 1000000 (some [0, 0]) 1 "up" 0
        (fun _ => 0) (fun _ => 0) (fun _ => true) = some ([3000000], [true]) ∧
    List.countP (fun idx => decide (0 ≤ idx ∧ idx < (1 : ℤ))) [(0 : ℤ), 0] = 2 ∧
    ([true] : List Bool).count true ≠ 2 := by
  refine ⟨?_, by decide, by decide⟩
  norm_num [generate_anomaly_series, injectAnomalies, List.range_succ,
    List.replicate_succ]

/-- Counterexample to C1 as stated: at point count 0,
`generate_anomaly_series` with `anomaly_indices` omitted and
`generate_ad_payload_data` with `inject_anomalies=True` both fail (modelled
`none`): each asks `np.random.choice(·, max(1, int(0*ratio)) = 1,
replace=False)` to draw from an empty population, which raises `ValueError`
rather than returning an empty sequence. -/
theorem zero_points_sampling_cex :
    generate_anomaly_series 0 1000000 none 0.5 "both" 0.05
        (fun _ => 0) (fun _ => 0) (fun _ => true) = none ∧
    generate_ad_payload_data 0 1500000 true (1 / 20) 0
        (fun _ => 0) (fun _ => 0) (fun _ => true) = none :=
  ⟨rfl, rfl⟩

/-- C1 (amended): at point count 0 every generator returns empty output
sequences without error — except `generate_anomaly_series` with
`anomaly_indices` omitted and `generate_ad_payload_data` with
`inject_anomalies=True`, which fail while sampling one anomaly index from an
empty population (and the covariate assemblers, whose dynamic sequences are
empty only when no forecast horizon is added). -/
theorem zero_points_behavior (trend_type seasonality d freq : String)
    (b ts nl amp m corr : ℝ) (period : ℤ) (n_series hl : ℕ) (ratio : ℚ)
    (now : ℕ) (sd : Option ℕ) (l : List ℤ) (bvs : Option (List ℝ))
    (ids : List String) (cs : Option (List String))
    (g : ℕ → ℝ) (pk : ℕ → ℕ) (sp : ℕ → Bool)
    (gc : String → ℕ → ℝ) (ge : String → ℕ → ℝ) (gf : String → ℕ → ℝ) :
    generate_trend_series 0 trend_type b ts nl g = [] ∧
    generate_seasonal_series 0 b seasonality amp nl g = [] ∧
    generate_trend_seasonal_series 0 b ts period amp nl g = [] ∧
    (generate_multivariate_series n_series 0 bvs corr nl g).all
      (fun p => p.2.isEmpty) = true ∧
    generate_anomaly_series 0 b (some l) m d nl g pk sp = some ([], []) ∧
    generate_anomaly_series 0 b none m d nl g pk sp = none ∧
    generate_timestamps 0 sd freq now = [] ∧
    generate_ad_payload_data 0 b false ratio now g pk sp = some [] ∧
    generate_ad_payload_data 0 b true ratio now g pk sp = none ∧
    (generate_covariates 0 ids false hl gc).dynamic_numerical_covariates.all
      (fun p => p.2.all (fun q => q.2.isEmpty)) = true ∧
    (generate_covariates 0 ids false hl gc).dynamic_categorical_covariates.all
      (fun p => p.2.all (fun q => q.2.isEmpty)) = true ∧
    (generate_electricity_like_data 0 cs ge gc gf).1.all
      (fun p => p.2.isEmpty) = true := by
  refine ⟨rfl, rfl, rfl, ?_, ?_, rfl, rfl, rfl, rfl, ?_, ?_, ?_⟩
  · simp [generate_multivariate_series, List.all_eq_true]
  · rw [generate_anomaly_series_explicit_eq]
    simp only [List.range_zero, List.map_nil, List.replicate_zero]
    exact congrArg some (Prod.ext
      (List.length_eq_zero.mp (injectAnomalies_length 0 b m d sp l 0 [] []).1)
      (List.length_eq_zero.mp (injectAnomalies_length 0 b m d sp l 0 [] []).2))
  · simp [generate_covariates, List.all_eq_true]
  · simp [generate_covariates, List.all_eq_true]
  · simp [generate_electricity_like_data, List.all_eq_true]

/-- Whenever `generate_anomaly_series` returns (for any index argument,
explicit or drawn), both returned lists have length `n_points`. -/
theorem generate_anomaly_series_some_length (n : ℕ) (b m nl : ℝ) (d : String)
    (idxs : Option (List ℤ)) (g : ℕ → ℝ) (pk : ℕ → ℕ) (sp : ℕ → Bool)
    (vf : List ℝ × List Bool)
    (h : generate_anomaly_series n b idxs m d nl g pk sp = some vf) :
    vf.1.length = n ∧ vf.2.length = n := by
  simp only [generate_anomaly_series] at h
  obtain ⟨a, -, hvf⟩ := Option.map_eq_some'.mp h
  have h1 := injectAnomalies_length n b m d sp a 0
    ((List.range n).map (fun (t : ℕ) => b + 0.001 * b * (t : ℝ) + b * nl * g t))
    (List.replicate n false)
  rw [hvf] at h1
  simpa using h1

/-- C3: every series-producing function returns sequences of exactly the
requested length `n` (for the fallible anomaly paths: whenever they return at
all). -/
theorem generated_lengths (n : ℕ) (trend_type seasonality d freq : String)
    (b ts nl amp m corr : ℝ) (period : ℤ) (n_series : ℕ)
    (bvs : Option (List ℝ)) (idxs : Option (List ℤ)) (inj : Bool) (ratio : ℚ)
    (sd : Option ℕ) (now : ℕ) (g : ℕ → ℝ) (pk : ℕ → ℕ) (sp : ℕ → Bool) :
    (generate_trend_series n trend_type b ts nl g).length = n ∧
    (generate_seasonal_series n b seasonality amp nl g).length = n ∧
    (generate_trend_seasonal_series n b ts period amp nl g).length = n ∧
    (∀ p ∈ generate_multivariate_series n_series n bvs corr nl g,
      p.2.length = n) ∧
    (∀ vf, generate_anomaly_series n b idxs m d nl g pk sp = some vf →
      vf.1.length = n ∧ vf.2.length = n) ∧
    (generate_timestamps n sd freq now).length = n ∧
    (∀ recs, generate_ad_payload_data n b inj ratio now g pk sp = some recs →
      recs.length = n) := by
  refine ⟨?_, ?_, ?_, ?_, ?_, ?_, ?_⟩
  · rw [generate_trend_series, List.length_map, List.length_range]
  · rw [generate_seasonal_series, List.length_map, List.length_range]
  · rw [generate_trend_seasonal_series, List.length_map, List.length_range]
  · intro p hp
    rw [generate_multivariate_series] at hp
    obtain ⟨i, -, hpe⟩ := List.mem_map.mp hp
    rw [← hpe, List.length_map, List.length_range]
  · intro vf h
    exact generate_anomaly_series_some_length n b m nl d idxs g pk sp vf h
  · rw [generate_timestamps, List.length_map, List.length_range]
  · intro recs h
    simp only [generate_ad_payload_data] at h
    obtain ⟨vf, hres, hrecs⟩ := Option.map_eq_some'.mp h
    have hlen1 : vf.1.length = n := by
      cases inj with
      | false =>
          rw [if_neg Bool.false_ne_true] at hres
          exact (generate_anomaly_series_some_length n b 0.5 0.03 "both"
            (some []) g pk sp vf hres).1
      | true =>
          rw [if_pos rfl] at hres
          cases hsc : sampleChoice
              ((List.range (n - n / 2)).map (fun j => ((n / 2 + j : ℕ) : ℤ)))
              (max 1 (Int.toNat (Int.floor ((n : ℚ) * ratio)))) pk with
          | none =>
              rw [hsc] at hres
              exact absurd hres (by simp)
          | some idxs2 =>
              rw [hsc] at hres
              exact (generate_anomaly_series_some_length n b 0.4 0.03 "both"
                (some idxs2) g pk sp vf hres).1
    rw [← hrecs, List.length_map, List.length_zip, generate_timestamps,
      List.length_map, List.length_range, hlen1, min_self]

/-- Witness for C3 at `n = 1`: concrete outputs of the anomaly series, the
multivariate series and the payload assembler all have length 1. -/
theorem generated_lengths_witness :
    ([(200 : ℝ)] : List ℝ).length = 1 ∧ ([true] : List Bool).length = 1 ∧
    ([(100 : ℝ)] : List ℝ).length = 1 ∧
    ([(formatTimestamp 0, (100 : ℤ))] : List (String × ℤ)).length = 1 := by
  have H := generated_lengths 1 "linear" "weekly" "up" "H" 100 1 0 0.2 1 0 7 1
    (some [(100 : ℝ)]) (some [(0 : ℤ)]) false (1 / 20) none 43200
    (fun _ => 0) (fun _ => 0) (fun _ => true)
  have hgas : generate_anomaly_series 1 100 (some [(0 : ℤ)]) 1 "up" 0
      (fun _ => 0) (fun _ => 0) (fun _ => true) = some ([200], [true]) := by
    norm_num [generate_anomaly_series, injectAnomalies, List.range_succ,
      List.replicate_succ]
  have hmv : generate_multivariate_series 1 1 (some [(100 : ℝ)]) 0 0
      (fun _ => 0) = [("series_" ++ toString 0, [100])] := by
    norm_num [generate_multivariate_series, mvBase, mvBaseValues, np_linspace0,
      List.range_succ]
  have hpay : generate_ad_payload_data 1 100 false (1 / 20) 43200
      (fun _ => 0) (fun _ => 0) (fun _ => true) =
      some [(formatTimestamp 0, (100 : ℤ))] := by
    norm_num [generate_ad_payload_data, generate_anomaly_series,
      injectAnomalies, generate_timestamps, freq_delta, intTrunc,
      List.range_succ, List.replicate_succ]
  refine ⟨?_, ?_, ?_, ?_⟩
  · exact (H.2.2.2.2.1 ([200], [true]) hgas).1
  · exact (H.2.2.2.2.1 ([200], [true]) hgas).2
  · exact H.2.2.2.1 ("series_" ++ toString 0, [100]) (hmv ▸ List.mem_singleton.mpr rfl)
  · exact H.2.2.2.2.2.2 [(formatTimestamp 0, (100 : ℤ))] hpay

/-- Entry `i` of `generate_multivariate_series`, written out: the shared
common component `rng t` (same oracle slot for every series) blended with the
per-series individual component. -/
theorem multivariate_getElem (n_series n_points : ℕ) (bvs : Option (List ℝ))
    (corr nl : ℝ) (rng : ℕ → ℝ) (i : ℕ) (hi : i < n_series) :
    (generate_multivariate_series n_series n_points bvs corr nl rng)[i]? =
      some ("series_" ++ toString i,
        (List.range n_points).map (fun (t : ℕ) =>
          mvBase n_series bvs i +
            np_linspace0 (mvBase n_series bvs i * 0.3) n_points t +
            (corr * rng t +
                Real.sqrt (1 - corr ^ 2) * rng (n_points + i * n_points + t)) *
              mvBase n_series bvs i * nl)) := by
  rw [generate_multivariate_series, List.getElem?_map, List.getElem?_range hi]
  rfl

/-- C7: in every call, one shared standard-normal common component (oracle
positions `0..n_points-1`, independent of the series index) is drawn for the
whole call, and series `i` at time `t` equals
`base_i + ramp(t) + (corr·common(t) + sqrt(1-corr²)·individual_i(t)) · base_i ·
noise_level`, where `individual_i` occupies the per-series oracle block drawn
inside the loop. -/
theorem generate_multivariate_series_shared_common (n_series n_points : ℕ)
    (bvs : Option (List ℝ)) (corr nl : ℝ) (rng : ℕ → ℝ) (i : ℕ)
    (hi : i < n_series) :
    (generate_multivariate_series n_series n_points bvs corr nl rng)[i]? =
      some ("series_" ++ toString i,
        (List.range n_points).map (fun (t : ℕ) =>
          mvBase n_series bvs i +
            np_linspace0 (mvBase n_series bvs i * 0.3) n_points t +
            (corr * rng t +
                Real.sqrt (1 - corr ^ 2) * rng (n_points + i * n_points + t)) *
              mvBase n_series bvs i * nl)) :=
  multivariate_getElem n_series n_points bvs corr nl rng i hi

/-- Witness for C7 at `n_series = n_points = 1`, `i = 0`, explicit base
`[200]`, zero correlation and noise. -/
theorem generate_multivariate_series_shared_common_witness :
    (generate_multivariate_series 1 1 (some [(200 : ℝ)]) 0 0 (fun _ => 0))[0]? =
      some ("series_" ++ toString 0,
        (List.range 1).map (fun (t : ℕ) =>
          mvBase 1 (some [(200 : ℝ)]) 0 +
            np_linspace0 (mvBase 1 (some [(200 : ℝ)]) 0 * 0.3) 1 t +
            (0 * 0 + Real.sqrt (1 - 0 ^ 2) * 0) *
              mvBase 1 (some [(200 : ℝ)]) 0 * 0)) :=
  generate_multivariate_series_shared_common 1 1 (some [200]) 0 0 (fun _ => 0)
    0 (by decide)

/-- C10: when the explicit `base_values` list is shorter than `n_series`, the
call still produces all `n_series` entries, and every series whose index is
not covered by the list is generated with base value `100.0`. -/
theorem generate_multivariate_series_short_base (n_series n_points : ℕ)
    (bvs : List ℝ) (corr nl : ℝ) (rng : ℕ → ℝ) (i : ℕ)
    (hlen : bvs.length ≤ i) (hi : i < n_series) :
    (generate_multivariate_series n_series n_points (some bvs) corr nl
        rng).length = n_series ∧
    (generate_multivariate_series n_series n_points (some bvs) corr nl
        rng)[i]? =
      some ("series_" ++ toString i,
        (List.range n_points).map (fun (t : ℕ) =>
          100.0 + np_linspace0 (100.0 * 0.3) n_points t +
            (corr * rng t +
                Real.sqrt (1 - corr ^ 2) * rng (n_points + i * n_points + t)) *
              100.0 * nl)) := by
  have hbase : mvBase n_series (some bvs) i = 100.0 := by
    rw [mvBase, mvBaseValues]
    simp only [Option.getD_some]
    rw [if_neg (by omega)]
  constructor
  · rw [generate_multivariate_series, List.length_map, List.length_range]
  · rw [multivariate_getElem n_series n_points (some bvs) corr nl rng i hi,
      hbase]

/-- Witness for C10: two series requested with a one-element base list; series
1 falls back to base `100.0`. -/
theorem generate_multivariate_series_short_base_witness :
    (generate_multivariate_series 2 1 (some [(200 : ℝ)]) 0 0
        (fun _ => 0)).length = 2 ∧
    (generate_multivariate_series 2 1 (some [(200 : ℝ)]) 0 0
        (fun _ => 0))[1]? =
      some ("series_" ++ toString 1,
        (List.range 1).map (fun (t : ℕ) =>
          100.0 + np_linspace0 (100.0 * 0.3) 1 t +
            (0 * 0 + Real.sqrt (1 - 0 ^ 2) * 0) * 100.0 * 0)) :=
  generate_multivariate_series_short_base 2 1 [200] 0 0 (fun _ => 0) 1
    (by decide) (by decide)

/-- Looking up any member of `ids` in an association list built by mapping
`(i, sid) ↦ (sid, f (i, sid))` over an enumeration of `ids` succeeds. -/
theorem lookup_map_enumFrom_isSome {α : Type} (f : ℕ × String → α) :
    ∀ (k : ℕ) (ids : List String) (sid : String), sid ∈ ids →
      (((List.enumFrom k ids).map (fun p => (p.2, f p))).lookup sid).isSome =
        true := by
  intro k ids
  induction ids generalizing k with
  | nil => intro sid h; exact absurd h (List.not_mem_nil sid)
  | cons a rest ihl =>
      intro sid h
      rw [List.enumFrom_cons, List.map_cons]
      by_cases heq : sid = a
      · subst heq
        simp [List.lookup_cons]
      · have h2 : sid ∈ rest := (List.mem_cons.mp h).resolve_left heq
        have hb : (sid == a) = false := beq_eq_false_iff_ne.mpr heq
        simp only [List.lookup_cons, hb]
        exact ihl (k + 1) sid h2

/-- Looking up a member `sid` of `ids` in the association list
`ids.map (fun s => (s, h s))` yields `h sid`. -/
theorem lookup_map_self {α : Type} (h : String → α) :
    ∀ (ids : List String) (sid : String), sid ∈ ids →
      ((ids.map (fun s => (s, h s))).lookup sid) = some (h sid) := by
  intro ids
  induction ids with
  | nil => intro sid hm; exact absurd hm (List.not_mem_nil sid)
  | cons a rest ihl =>
      intro sid hm
      rw [List.map_cons]
      by_cases heq : sid = a
      · subst heq
        simp [List.lookup_cons]
      · have h2 : sid ∈ rest := (List.mem_cons.mp hm).resolve_left heq
        have hb : (sid == a) = false := beq_eq_false_iff_ne.mpr heq
        simp only [List.lookup_cons, hb]
        exact ihl sid h2

/-- C8: every supplied series identifier appears in all four sub-mappings of
the covariate bundle, and both dynamic sequences for it have length
`n_points + horizon_len` when the horizon is included and `n_points`
otherwise. -/
theorem generate_covariates_complete (n : ℕ) (ids : List String)
    (ihoriz : Bool) (hl : ℕ) (g : String → ℕ → ℝ) (sid : String)
    (hs : sid ∈ ids) :
    ((generate_covariates n ids ihoriz hl g).static_numerical_covariates.lookup
        "base_price").map (fun m => (m.lookup sid).isSome) = some true ∧
    ((generate_covariates n ids ihoriz hl
        g).static_categorical_covariates.lookup
        "category").map (fun m => (m.lookup sid).isSome) = some true ∧
    (((generate_covariates n ids ihoriz hl
        g).dynamic_numerical_covariates.lookup
        "temperature").bind (fun m => m.lookup sid)).map List.length =
      some (if ihoriz then n + hl else n) ∧
    (((generate_covariates n ids ihoriz hl
        g).dynamic_categorical_covariates.lookup
        "day_of_week").bind (fun m => m.lookup sid)).map List.length =
      some (if ihoriz then n + hl else n) := by
  refine ⟨?_, ?_, ?_, ?_⟩
  · simp only [generate_covariates, List.enum, List.lookup_cons,
      beq_self_eq_true, Option.map_some']
    exact congrArg some
      (lookup_map_enumFrom_isSome (fun p => (100.0 : ℝ) + (p.1 : ℝ) * 50) 0
        ids sid hs)
  · simp only [generate_covariates, List.enum, List.lookup_cons,
      beq_self_eq_true, Option.map_some']
    exact congrArg some
      (lookup_map_enumFrom_isSome
        (fun p => (["electronics", "clothing", "food", "home"] :
          List String).getD
            (p.1 % (["electronics", "clothing", "food", "home"] :
              List String).length) "") 0 ids sid hs)
  · simp only [generate_covariates, List.lookup_cons, beq_self_eq_true,
      Option.some_bind]
    rw [lookup_map_self (fun s => (List.range
        (if ihoriz then n + hl else n)).map (fun (t : ℕ) =>
          20 + 10 * Real.sin (2 * Real.pi * (t : ℝ) / 24) + 2 * g s t))
      ids sid hs]
    rw [Option.map_some', List.length_map, List.length_range]
  · simp only [generate_covariates, List.lookup_cons, beq_self_eq_true,
      Option.some_bind]
    rw [lookup_map_self (fun _ => (List.range
        (if ihoriz then n + hl else n)).map (fun (t : ℕ) =>
          (["Mon", "Tue", "Wed", "Thu", "Fri", "Sat", "Sun"] :
            List String).getD (t % 7) "")) ids sid hs]
    rw [Option.map_some', List.length_map, List.length_range]

/-- Witness for C8: three historical points, identifiers `["a", "b"]`, no
horizon; identifier `"b"` appears in all four sub-mappings and its dynamic
sequences have length 3. -/
theorem generate_covariates_complete_witness :
    ((generate_covariates 3 ["a", "b"] false 7
        (fun _ _ => 0)).static_numerical_covariates.lookup
        "base_price").map (fun m => (m.lookup "b").isSome) = some true ∧
    ((generate_covariates 3 ["a", "b"] false 7
        (fun _ _ => 0)).static_categorical_covariates.lookup
        "category").map (fun m => (m.lookup "b").isSome) = some true ∧
    (((generate_covariates 3 ["a", "b"] false 7
        (fun _ _ => 0)).dynamic_numerical_covariates.lookup
        "temperature").bind (fun m => m.lookup "b")).map List.length =
      some 3 ∧
    (((generate_covariates 3 ["a", "b"] false 7
        (fun _ _ => 0)).dynamic_categorical_covariates.lookup
        "day_of_week").bind (fun m => m.lookup "b")).map List.length =
      some 3 :=
  generate_covariates_complete 3 ["a", "b"] false 7 (fun _ _ => 0) "b"
    (by simp)

/-- C9: `generate_timestamps` returns `n` strings, the `i`-th formatting
`start + i · step` with the pattern `MM/DD/YYYY, hh:mm AM/PM`
(`formatTimestamp`), where the step is 1 hour for `"H"`, 1 day for `"D"`,
1 week for `"W"`, 30 days for `"M"`, and 1 hour for any unrecognized code;
in particular two daily points give `[format T0, format (T0 + 1 day)]`. -/
theorem generate_timestamps_spec (n T0 now : ℕ) (freq : String) :
    (generate_timestamps n (some T0) freq now).length = n ∧
    generate_timestamps n (some T0) freq now =
      (List.range n).map (fun i => formatTimestamp (T0 +
        i * (if freq = "H" then 60 else if freq = "D" then 1440
          else if freq = "W" then 10080 else if freq = "M" then 43200
          else 60))) ∧
    generate_timestamps 2 (some T0) "D" now =
      [formatTimestamp T0, formatTimestamp (T0 + 1440)] := by
  refine ⟨?_, ?_, ?_⟩
  · rw [generate_timestamps, List.length_map, List.length_range]
  · rw [generate_timestamps]
    rfl
  · rw [generate_timestamps]
    rfl

/-- C4: with seasonality `"yearly"` (period 1) and `noise_level = 0`,
`generate_seasonal_series` returns `base_value` repeated `n_points` times,
because the seasonal term `sin(2π·t/1)` vanishes at every integer index. -/
theorem generate_seasonal_series_yearly_const (n_points : ℕ) (base_value : ℝ)
    (amplitude : ℝ) (g : ℕ → ℝ) :
    generate_seasonal_series n_points base_value "yearly" amplitude 0 g =
      List.replicate n_points base_value := by
  unfold generate_seasonal_series
  have hper : period_map "yearly" = 1 := by rfl
  rw [hper]
  have hmap : ∀ t ∈ List.range n_points,
      base_value + base_value * amplitude *
          Real.sin (2 * Real.pi * t / ((1 : ℕ) : ℝ)) +
        base_value * 0 * g t = base_value := by
    intro t _
    have harg : 2 * Real.pi * (t : ℝ) / ((1 : ℕ) : ℝ) = ((2 * t : ℕ) : ℝ) * Real.pi := by
      push_cast
      ring
    rw [harg, Real.sin_nat_mul_pi]
    ring
  rw [List.map_congr_left hmap]
  simp [List.map_const']

/-- C5: with `seasonal_amplitude = 0` and `noise_level = 0`,
`generate_trend_seasonal_series` is exactly the pure linear trend
`base_value + trend_strength * index`. -/
theorem generate_trend_seasonal_series_pure_trend (n_points : ℕ)
    (base_value trend_strength : ℝ) (seasonal_period : ℤ) (g : ℕ → ℝ) :
    generate_trend_seasonal_series n_points base_value trend_strength
        seasonal_period 0 0 g =
      (List.range n_points).map (fun (t : ℕ) => base_value + trend_strength * (t : ℝ)) := by
  unfold generate_trend_seasonal_series
  refine List.map_congr_left ?_
  intro t _
  ring

/-- C6: with `noise_level = 0` and a `trend_type` other than `"linear"`,
`"exponential"`, `"logarithmic"` (including `"flat"`), `generate_trend_series`
is the constant sequence `base_value` of length `n_points`. -/
theorem generate_trend_series_flat_const (n_points : ℕ) (trend_type : String)
    (base_value trend_strength : ℝ) (g : ℕ → ℝ)
    (h1 : trend_type ≠ "linear") (h2 : trend_type ≠ "exponential")
    (h3 : trend_type ≠ "logarithmic") :
    generate_trend_series n_points trend_type base_value trend_strength 0 g =
      List.replicate n_points base_value := by
  unfold generate_trend_series
  have hmap : ∀ t ∈ List.range n_points,
      (if trend_type = "linear" then base_value + trend_strength * t
        else if trend_type = "exponential" then
          base_value * (1 + 0.01 * trend_strength) ^ t
        else if trend_type = "logarithmic" then
          base_value + trend_strength * 10 * Real.log (1 + t)
        else base_value) + base_value * 0 * g t = base_value := by
    intro t _
    rw [if_neg h1, if_neg h2, if_neg h3]
    ring
  rw [List.map_congr_left hmap]
  simp [List.map_const']

/-- Witness for C6 at the spec's example input: `n_points = 5`,
`trend_type = "flat"`, `noise_level = 0`, default base `100.0`. -/
theorem generate_trend_series_flat_const_witness :
    generate_trend_series 5 "flat" 100.0 1.0 0 (fun _ => 0) =
      List.replicate 5 100.0 :=
  generate_trend_series_flat_const 5 "flat" 100.0 1.0 (fun _ => 0)
    (by decide) (by decide) (by decide)

end SyntheticData
